import Mathlib

/-!
Formal model of the response-parsing and report-assembly pipeline of
src/app.py (VistorIA Pro).

Modelling conventions:
* Python strings are modelled as `List Char`; bytes as `List Nat`.
* The external JSON parser (`json.loads`, standard-library code outside
  this repository) is an explicit parameter `loads : List Char → Option α`
  returning `none` exactly where Python would raise.
* Python float arithmetic is modelled by `ℚ`.
* Fallible external steps (image decoding, the provider round trip) are
  modelled with `Except` carrying the exception message.
-/

/-- Model of Python `str.lower` restricted to the characters that occur in
the status keys and the summary section markers of the source (ASCII via
`Char.toLower`, plus the accented capitals used in the Portuguese marker
strings). -/
def toLowerPy (c : Char) : Char :=
  if c = 'Ç' then 'ç' else if c = 'Ã' then 'ã' else if c = 'Õ' then 'õ'
  else if c = 'É' then 'é' else if c = 'Ó' then 'ó' else c.toLower

/-- Characterwise lowering, model of Python `str.lower()`. -/
def lowerPy (s : List Char) : List Char := s.map toLowerPy

/-- Model of Python `str.strip()`: remove whitespace from both ends. -/
def pyStrip (s : List Char) : List Char :=
  ((s.dropWhile Char.isWhitespace).reverse.dropWhile Char.isWhitespace).reverse

/-- Model of src/app.py lines 132-137, `STATUS_MAP`: status key mapped to
the triple (dot glyph, display label, background colour hex code). -/
def STATUS_MAP : List (List Char × List Char × List Char × List Char) :=
  [("verde".toList, "🟢".toList, "Bom".toList, "#DCFCE7".toList),
   ("amarelo".toList, "🟡".toList, "Regular".toList, "#FEF9C3".toList),
   ("vermelho".toList, "🔴".toList, "Ruim".toList, "#FEE2E2".toList),
   ("nao_identificavel".toList, "⚪".toList, "Não identificável".toList, "#F3F4F6".toList)]

/-- Model of Python `dict.get(k, dflt)` over an association list. -/
def dictGet {β : Type} : List (List Char × β) → List Char → β → β
  | [], _, dflt => dflt
  | (k, v) :: rest, key, dflt => if key = k then v else dictGet rest key dflt

/-- Model of src/app.py lines 140-145, `format_status`: empty (falsy) input
returns the empty string; otherwise the input is stripped and lowered, and
the dot and label are looked up in `STATUS_MAP` with default
(white dot, the normalized raw value itself). -/
def format_status (value : List Char) : List Char :=
  if value = [] then []
  else
    let v := lowerPy (pyStrip value)
    let dl := dictGet STATUS_MAP v ("⚪".toList, v, "#F3F4F6".toList)
    dl.1 ++ ' ' :: dl.2.1

/-- Suffix of the list starting at the first occurrence of `c`
(`none` when `c` does not occur). -/
def dropBefore (c : Char) : List Char → Option (List Char)
  | [] => none
  | x :: xs => if x = c then some (x :: xs) else dropBefore c xs

/-- Longest prefix of `s` ending at the last occurrence of `c`
(`none` when `c` does not occur). -/
def takeThroughLast (c : Char) (s : List Char) : Option (List Char) :=
  (dropBefore c s.reverse).map List.reverse

/-- Model of the regex search of src/app.py line 193 (a greedy brace block,
dot matching newline): the leftmost-greedy match runs from the first open
brace to the last close brace occurring after it, when both exist. -/
def braceCandidate (s : List Char) : Option (List Char) :=
  match dropBefore '{' s with
  | none => none
  | some t => (takeThroughLast '}' t.tail).map (fun u => '{' :: u)

/-- Model of src/app.py lines 183-201, `extract_json`, parametric in the
external JSON parser `loads` (`json.loads`, returning `none` where Python
raises).  The argument is an `Option` to model a Python `None` argument,
handled by the source via `text or ""`.  Returns the triple
(record-or-none, ok, raw) where raw is the stripped input. -/
def extract_json {α : Type} (loads : List Char → Option α) (text : Option (List Char)) :
    Option α × Bool × List Char :=
  let raw := pyStrip (text.getD [])
  match loads raw with
  | some obj => (some obj, true, raw)
  | none =>
    match braceCandidate raw with
    | some candidate =>
      match loads candidate with
      | some obj => (some obj, true, raw)
      | none => (none, false, raw)
    | none => (none, false, raw)

/-- Helper for the bold-marker regex of src/app.py line 238: locate the
first occurrence of the two-star delimiter, returning the text before it
and the text after it. -/
def splitOnStars : List Char → Option (List Char × List Char)
  | [] => none
  | c :: rest =>
    if c = '*' ∧ rest.head? = some '*' then some ([], rest.tail)
    else (splitOnStars rest).map (fun ab => (c :: ab.1, ab.2))

/-- Fuelled model of the regex substitution of src/app.py line 238
(remove paired two-star bold delimiters, lazy inner match, left to right):
each rewrite step finds the first delimiter and the next one after it,
keeps the text between them, and continues after it.  Each step consumes
at least four characters of the remaining input, so fuel `s.length`
always suffices (`stripBold` below applies exactly that fuel). -/
def stripBoldFuel : Nat → List Char → List Char
  | 0, s => s
  | fuel + 1, s =>
    match splitOnStars s with
    | none => s
    | some (pre, rest1) =>
      match splitOnStars rest1 with
      | none => s
      | some (inner, rest2) => pre ++ inner ++ stripBoldFuel fuel rest2

/-- Model of the regex substitution inside `strip_md` (src/app.py
line 238). -/
def stripBold (s : List Char) : List Char := stripBoldFuel s.length s

/-- Model of src/app.py lines 234-239, `strip_md`: remove simple paired
bold markers, then strip surrounding whitespace (the source's early
return for falsy input agrees with this composition on the empty
string). -/
def strip_md (s : List Char) : List Char := pyStrip (stripBold s)

/-- Model of the marker list of src/app.py lines 252-257 (`keys` inside
`split_summary_sections`). -/
def summaryKeys : List (List Char) :=
  ["Principais Achados".toList,
   "Pontos de Atenção".toList,
   "Recomendações de Próximos Passos".toList,
   "Limitações".toList]

/-- Index of the first occurrence of `k` as a contiguous sublist of `t`,
starting the count at `i`. -/
def findSubAux (k : List Char) : List Char → Nat → Option Nat
  | [], i => if k = [] then some i else none
  | c :: rest, i =>
    if k.isPrefixOf (c :: rest) then some i else findSubAux k rest (i + 1)

/-- Index of the first occurrence of `k` as a contiguous sublist of `t`.
Applied to lowered text and key this models the start position of the
case-insensitive marker search of src/app.py line 262 (the trailing
optional whitespace-colon part of the pattern does not affect whether or
where a match starts). -/
def findSub (t k : List Char) : Option Nat := findSubAux k t 0

/-- Insertion into a start-sorted position list by start index.  The four
markers pairwise differ before either ends, so two distinct found markers
never share a start index and sorting by start index alone agrees with
the source's tuple sort (src/app.py line 269). -/
def insertByStart (x : Nat × List Char) : List (Nat × List Char) → List (Nat × List Char)
  | [] => [x]
  | y :: ys => if x.1 ≤ y.1 then x :: y :: ys else y :: insertByStart x ys

/-- Model of `positions.sort()` (src/app.py line 269). -/
def sortByStart : List (Nat × List Char) → List (Nat × List Char)
  | [] => []
  | x :: xs => insertByStart x (sortByStart xs)

/-- Model of the tail of the title-removal pattern of src/app.py line 275:
optional whitespace, an optional colon, optional whitespace. -/
def dropColonWs (s : List Char) : List Char :=
  let s1 := s.dropWhile Char.isWhitespace
  let s2 := match s1 with
    | ':' :: r => r
    | _ => s1
  s2.dropWhile Char.isWhitespace

/-- Model of the per-section block clean-up of src/app.py lines 273-275:
strip the slice, remove the leading marker title (case-insensitively)
together with trailing whitespace-colon, and strip again. -/
def cleanBlock (key block : List Char) : List Char :=
  let b := pyStrip block
  let b2 :=
    if (lowerPy key).isPrefixOf (lowerPy b) then dropColonWs (b.drop key.length)
    else b
  pyStrip b2

/-- Model of the section-building loop of src/app.py lines 270-276: each
found marker yields one section whose content runs from its start to the
next marker's start (or the end of the text). -/
def buildSections (t : List Char) : List (Nat × List Char) → List (List Char × List Char)
  | [] => []
  | (start, key) :: rest =>
    let stop := match rest with
      | [] => t.length
      | (s2, _) :: _ => s2
    (key, cleanBlock key ((t.drop start).take (stop - start))) :: buildSections t rest

/-- Model of src/app.py lines 242-284, `split_summary_sections`: markdown
strip and trim; empty text yields no blocks; if no marker is found the
whole text is a single block titled "Resumo Geral"; otherwise one block
per found marker in start order, preceded by an introduction block when
text precedes the first marker. -/
def split_summary_sections (text : List Char) : List (List Char × List Char) :=
  let t := strip_md text
  if t = [] then []
  else
    let positions :=
      summaryKeys.filterMap (fun k => (findSub (lowerPy t) (lowerPy k)).map (fun i => (i, k)))
    match positions with
    | [] => [("Resumo Geral".toList, t)]
    | p :: ps =>
      let sorted := sortByStart (p :: ps)
      let sections := buildSections t sorted
      let firstStart := (sorted.headD (0, [])).1
      let intro := pyStrip (t.take firstStart)
      if intro = [] then sections else ("Resumo Geral".toList, intro) :: sections

/-- Size behaviour of src/app.py lines 109-122,
`image_to_optimized_jpeg_bytes`: the pixel dimensions of the re-encoded
image.  The scale factor is the configured maximum divided by the longer
side, capped at one; `Nat.floor` models Python `int(...)` applied to the
non-negative products. -/
def image_to_optimized_jpeg_dims (w h max_side : ℕ) : ℕ × ℕ :=
  let scale : ℚ := min ((max_side : ℚ) / ((max w h : ℕ) : ℚ)) 1
  if scale < 1 then (⌊(w : ℚ) * scale⌋₊, ⌊(h : ℚ) * scale⌋₊) else (w, h)

/-- A4 page width in points (210 millimetres at 72 points per inch),
matching the reportlab constant used in src/app.py line 313. -/
def A4_width_pt : ℚ := 75600 / 127

/-- One centimetre in points, matching the reportlab unit used throughout
`build_pdf_bytes`. -/
def cm_pt : ℚ := 3600 / 127

/-- Printable width of src/app.py line 412: page width minus the left and
right margins of 1.6 centimetres each (lines 314-315). -/
def usable_w : ℚ := A4_width_pt - (16 / 10) * cm_pt - (16 / 10) * cm_pt

/-- Fixed maximum embedded-image height of src/app.py line 430
(9 centimetres). -/
def item_image_max_h : ℚ := 9 * cm_pt

/-- Drawn dimensions computed by src/app.py lines 287-305,
`fit_image_preserve_aspect`, from the decoded pixel dimensions: start from
the full allowed width and the proportional height, and when that height
exceeds the allowed maximum switch to the full allowed height and the
proportional width. -/
def fit_image_preserve_aspect_dims (w_px h_px : ℕ) (max_w max_h : ℚ) : ℚ × ℚ :=
  let aspect : ℚ := (h_px : ℚ) / ((max w_px 1 : ℕ) : ℚ)
  if max_h < max_w * aspect then (max_h / aspect, max_h) else (max_w, max_w * aspect)

/-- One entry of the items list assembled by src/app.py lines 708-725:
the per-photo record of the report. -/
structure Item (J : Type) where
  filename : List Char
  image_bytes : Option (List Nat)
  image_hash : Option (List Char)
  json : Option J
  parse_ok : Bool
  raw_text : List Char
deriving DecidableEq

/-- One uploaded photo together with the outcomes of its two fallible
external steps in the loop body of src/app.py lines 698-727: decoding and
re-encoding the image (`Image.open` plus `image_to_optimized_jpeg_bytes`,
whose size behaviour is modelled separately above), and the provider round
trip of `analyze_image_with_gemini` (lines 207-217) up to the response
text.  An `Except.error` carries the exception message `str(e)`. -/
structure UploadedFile where
  name : List Char
  openAndOptimize : Except (List Char) (List Nat)
  providerResp : Except (List Char) (List Char)

/-- Diagnostic message head used by the per-photo exception handler of
src/app.py line 724. -/
def erroMsgHead : List Char := "Erro ao analisar esta imagem: ".toList

/-- Model of one iteration of the per-photo loop of src/app.py
lines 698-727, parametric in the JSON parser and the hash function
(`hashlib.sha256`, external): any exception in the body produces the
fallback item of lines 718-725 with no image bytes and no image hash;
otherwise the item of lines 708-715 is appended. -/
def process_photo {J : Type} (loads : List Char → Option J) (hash : List Nat → List Char)
    (uf : UploadedFile) : Item J :=
  match uf.openAndOptimize with
  | Except.error e =>
    { filename := uf.name, image_bytes := none, image_hash := none,
      json := none, parse_ok := false, raw_text := erroMsgHead ++ e }
  | Except.ok img_bytes =>
    match uf.providerResp with
    | Except.error e =>
      { filename := uf.name, image_bytes := none, image_hash := none,
        json := none, parse_ok := false, raw_text := erroMsgHead ++ e }
    | Except.ok text =>
      let r := extract_json loads (some text)
      { filename := uf.name, image_bytes := some img_bytes,
        image_hash := some (hash img_bytes),
        json := r.1, parse_ok := r.2.1, raw_text := r.2.2 }

/-- Model of the whole per-photo loop of src/app.py lines 698-727: the
items list is built by processing the uploaded files one at a time in
upload order. -/
def run_batch {J : Type} (loads : List Char → Option J) (hash : List Nat → List Char)
    (ufs : List UploadedFile) : List (Item J) :=
  ufs.map (process_photo loads hash)

/-- The fields of the report dictionary of src/app.py lines 759-773 that
the claims are about (the wall-clock fields `generated_at` and
`elapsed_s` depend on real time and are outside the embedding). -/
structure Report (J : Type) where
  cliente : List Char
  endereco : List Char
  model : List Char
  n_images : Nat
  timezone : List Char
  items : List (Item J)
  summary_text : List Char

/-- Timezone label constant of src/app.py line 38. -/
def TZ_NAME : List Char := "America/Sao_Paulo".toList

/-- Model of the report assembly of src/app.py lines 759-773: header
fields are stripped, the photo count is the length of the items list, and
the items are stored in upload order. -/
def mk_report {J : Type} (cliente endereco model : List Char) (items : List (Item J))
    (summary_text : List Char) : Report J :=
  { cliente := pyStrip cliente, endereco := pyStrip endereco, model := model,
    n_images := items.length, timezone := TZ_NAME, items := items,
    summary_text := summary_text }

/-- Model of the image-block guard of src/app.py lines 427-428 (and of
`render_report` line 555): an item contributes an embedded image to the
document exactly when its image bytes are present and non-empty (Python
truthiness of the bytes value). -/
def item_pdf_includes_image {J : Type} (it : Item J) : Bool :=
  match it.image_bytes with
  | none => false
  | some b => !b.isEmpty

/-- Concrete instantiation of the external JSON parser used to evaluate
the extractor on closed inputs: it recognises exactly the empty JSON
object (which the real parser also accepts) and fails on everything else
(which the real parser also does on the concrete non-object inputs it is
applied to below). -/
def loadsEmptyObj : List Char → Option Unit :=
  fun s => if s = ['{', '}'] then some () else none

theorem dropBefore_append_of_not_mem {c : Char} {p : List Char} (hp : c ∉ p) (xs : List Char) :
    dropBefore c (p ++ c :: xs) = some (c :: xs) := by
  induction p with
  | nil => simp [dropBefore]
  | cons a p ih =>
    have ha : a ≠ c := fun hac => hp (hac ▸ List.mem_cons_self a p)
    simp only [List.cons_append, dropBefore, if_neg ha]
    exact ih (fun hmem => hp (List.mem_cons_of_mem a hmem))

theorem takeThroughLast_append_of_not_mem {c : Char} {s : List Char} (hs : c ∉ s)
    (mid : List Char) :
    takeThroughLast c ((mid ++ [c]) ++ s) = some (mid ++ [c]) := by
  unfold takeThroughLast
  have hrev : ((mid ++ [c]) ++ s).reverse = s.reverse ++ c :: mid.reverse := by simp
  rw [hrev, dropBefore_append_of_not_mem (by simpa using hs) mid.reverse]
  simp

theorem braceCandidate_decomp {p mid s : List Char} (hp : '{' ∉ p) (hs : '}' ∉ s) :
    braceCandidate (p ++ ('{' :: (mid ++ ['}'])) ++ s) = some ('{' :: (mid ++ ['}'])) := by
  unfold braceCandidate
  have h1 : dropBefore '{' (p ++ ('{' :: (mid ++ ['}'])) ++ s) =
      some ('{' :: ((mid ++ ['}']) ++ s)) := by
    have hd := dropBefore_append_of_not_mem hp ((mid ++ ['}']) ++ s)
    have hlist : p ++ '{' :: ((mid ++ ['}']) ++ s) = p ++ ('{' :: (mid ++ ['}'])) ++ s := by
      simp
    rw [hlist] at hd
    exact hd
  rw [h1]
  simp only [List.tail_cons]
  rw [takeThroughLast_append_of_not_mem hs mid]
  rfl

/-- Claim C1, corrected.  `format_status` is a total function (it never
raises): the empty string maps to the empty string, every non-empty value
maps either to one of the four table labels or to the white dot followed
by the normalized raw value, and in particular an unrecognized non-empty
value keeps its raw value after the white dot instead of receiving the
non-identifiable label. -/
theorem claim_C1_amended (value : List Char) :
    (value = [] → format_status value = []) ∧
    (value ≠ [] →
      (format_status value = "🟢 Bom".toList ∨
       format_status value = "🟡 Regular".toList ∨
       format_status value = "🔴 Ruim".toList ∨
       format_status value = "⚪ Não identificável".toList ∨
       format_status value = '⚪' :: ' ' :: lowerPy (pyStrip value)) ∧
      (lowerPy (pyStrip value) ∉
          ["verde".toList, "amarelo".toList, "vermelho".toList, "nao_identificavel".toList] →
        format_status value = '⚪' :: ' ' :: lowerPy (pyStrip value))) := by
  constructor
  · intro h
    simp [format_status, h]
  · intro h
    simp only [format_status, if_neg h, STATUS_MAP, dictGet]
    split_ifs with h1 h2 h3 h4
    · exact ⟨Or.inl (by decide), fun hn => absurd (by simp [h1]) hn⟩
    · exact ⟨Or.inr (Or.inl (by decide)), fun hn => absurd (by simp [h2]) hn⟩
    · exact ⟨Or.inr (Or.inr (Or.inl (by decide))), fun hn => absurd (by simp [h3]) hn⟩
    · exact ⟨Or.inr (Or.inr (Or.inr (Or.inl (by decide)))),
        fun hn => absurd (by simp [h4]) hn⟩
    · exact ⟨Or.inr (Or.inr (Or.inr (Or.inr rfl))), fun _ => rfl⟩

/-- Witness for claim C1: at the concrete unrecognized value "xyz" the
formatter keeps the raw value after the white dot. -/
theorem claim_C1_witness :
    format_status "xyz".toList = '⚪' :: ' ' :: lowerPy (pyStrip "xyz".toList) :=
  ((claim_C1_amended "xyz".toList).2 (by decide)).2 (by decide)

/-- Counterexample to claim C1 as stated: the unrecognized value "xyz"
formats to the white dot followed by "xyz", which is none of the four
defined display labels, and the empty value formats to the empty string. -/
theorem claim_C1_counterexample :
    format_status "xyz".toList = "⚪ xyz".toList ∧
    format_status "xyz".toList ≠ "🟢 Bom".toList ∧
    format_status "xyz".toList ≠ "🟡 Regular".toList ∧
    format_status "xyz".toList ≠ "🔴 Ruim".toList ∧
    format_status "xyz".toList ≠ "⚪ Não identificável".toList ∧
    format_status [] = [] := by decide

/-- Claim C3, confirmed.  Whenever the external parser accepts the whole
trimmed input, `extract_json` returns ok with exactly that parsed record
and the trimmed raw channel. -/
theorem claim_C3 {α : Type} (loads : List Char → Option α) (text : List Char) (j : α)
    (h : loads (pyStrip text) = some j) :
    extract_json loads (some text) = (some j, true, pyStrip text) := by
  simp [extract_json, h]

/-- Witness for claim C3 at the concrete input consisting of the empty
JSON object surrounded by whitespace. -/
theorem claim_C3_witness :
    extract_json loadsEmptyObj (some [' ', '{', '}', ' ']) =
      (some (), true, pyStrip [' ', '{', '}', ' ']) :=
  claim_C3 loadsEmptyObj [' ', '{', '}', ' '] () (by decide)

/-- Claim C2, corrected.  When the whole trimmed input does not parse and
the greedy brace candidate (when one exists) does not parse either, the
extractor returns no record and ok false, and the raw-text channel is the
trimmed input — equal to the input stripped of surrounding whitespace,
not to the input character for character. -/
theorem claim_C2_amended {α : Type} (loads : List Char → Option α) (text : List Char)
    (h1 : loads (pyStrip text) = none)
    (h2 : ∀ c, braceCandidate (pyStrip text) = some c → loads c = none) :
    extract_json loads (some text) = (none, false, pyStrip text) := by
  cases hc : braceCandidate (pyStrip text) with
  | none => simp [extract_json, h1, hc]
  | some c => simp [extract_json, h1, hc, h2 c hc]

/-- Witness for claim C2 at a concrete brace-free non-JSON input with
surrounding whitespace. -/
theorem claim_C2_witness :
    extract_json (fun _ => (none : Option Unit)) (some [' ', 'x', ' ']) =
      (none, false, pyStrip [' ', 'x', ' ']) :=
  claim_C2_amended (fun _ => (none : Option Unit)) [' ', 'x', ' '] rfl (fun _ _ => rfl)

/-- Counterexample to claim C2 as stated: on the unrecoverable input
consisting of "x" surrounded by spaces the extractor does return
ok false and no record, but its third component is the stripped text,
which differs from the input string. -/
theorem claim_C2_counterexample :
    (extract_json (fun _ => (none : Option Unit)) (some [' ', 'x', ' '])).2.1 = false ∧
    (extract_json (fun _ => (none : Option Unit)) (some [' ', 'x', ' '])).1 = none ∧
    (extract_json (fun _ => (none : Option Unit)) (some [' ', 'x', ' '])).2.2 ≠
      [' ', 'x', ' '] := by decide

/-- Claim C5, confirmed.  `extract_json` is a total function: for every
parser behaviour and every input (a `none` input behaves as the empty
string), the result is a well-formed triple whose raw channel is the
trimmed input, and it is either ok with a record present or not ok with
no record — parse failures are absorbed, never propagated. -/
theorem claim_C5 {α : Type} (loads : List Char → Option α) (text : Option (List Char)) :
    (extract_json loads text).2.2 = pyStrip (text.getD []) ∧
    (((extract_json loads text).2.1 = true ∧ (extract_json loads text).1.isSome = true) ∨
     ((extract_json loads text).2.1 = false ∧ (extract_json loads text).1 = none)) ∧
    extract_json loads none = extract_json loads (some []) := by
  refine ⟨?_, ?_, rfl⟩ <;>
  · rcases h1 : loads (pyStrip (text.getD [])) with _ | j
    · rcases h2 : braceCandidate (pyStrip (text.getD [])) with _ | c
      · simp [extract_json, h1, h2]
      · rcases h3 : loads c with _ | j2 <;> simp [extract_json, h1, h2, h3]
    · simp [extract_json, h1]

/-- Claim C4, corrected.  When the trimmed input decomposes as a prose
prefix without any open brace, a brace-delimited record accepted by the
parser, and a prose suffix without any close brace, and the whole trimmed
input itself does not parse, the extractor recovers exactly the embedded
record with ok true.  (Without the brace-freeness side conditions the
greedy first-open-brace-to-last-close-brace candidate can absorb prose
and the recovery fails; see the counterexample.) -/
theorem claim_C4_amended {α : Type} (loads : List Char → Option α) (text p mid s : List Char)
    (r : α)
    (hdecomp : pyStrip text = p ++ ('{' :: (mid ++ ['}'])) ++ s)
    (hp : '{' ∉ p) (hs : '}' ∉ s)
    (hwhole : loads (pyStrip text) = none)
    (hrec : loads ('{' :: (mid ++ ['}'])) = some r) :
    extract_json loads (some text) = (some r, true, pyStrip text) := by
  have hb : braceCandidate (pyStrip text) = some ('{' :: (mid ++ ['}'])) := by
    rw [hdecomp]
    exact braceCandidate_decomp hp hs
  simp [extract_json, hwhole, hb, hrec]

/-- Witness for claim C4: the empty JSON object embedded in brace-free
prose is recovered. -/
theorem claim_C4_witness :
    extract_json loadsEmptyObj (some ['s', 'e', 'e', ' ', '{', '}', ' ', 'o', 'k']) =
      (some (), true, pyStrip ['s', 'e', 'e', ' ', '{', '}', ' ', 'o', 'k']) :=
  claim_C4_amended loadsEmptyObj ['s', 'e', 'e', ' ', '{', '}', ' ', 'o', 'k']
    ['s', 'e', 'e', ' '] [] [' ', 'o', 'k'] ()
    (by decide) (by decide) (by decide) (by decide) (by decide)

/-- Counterexample to claim C4 as stated: the input consisting of the
valid record (the empty JSON object, accepted by the parser) followed by
the non-JSON prose suffix "x" plus a close brace makes the greedy
candidate span the prose, so extraction returns ok false instead of
recovering the embedded record. -/
theorem claim_C4_counterexample :
    loadsEmptyObj ['{', '}'] = some () ∧
    pyStrip ['{', '}', 'x', '}'] = [] ++ ('{' :: ([] ++ ['}'])) ++ ['x', '}'] ∧
    (extract_json loadsEmptyObj (some ['{', '}', 'x', '}'])).2.1 = false ∧
    (extract_json loadsEmptyObj (some ['{', '}', 'x', '}'])).1 = none := by decide

/-- Claim C6, confirmed.  For a batch of three photos where the second
photo's provider call throws (its image step having succeeded) and the
third photo's steps succeed, the assembled report holds exactly three
items in upload order: the second is the fallback item with ok false and
the diagnostic message as raw text, and the third is processed normally —
the single failure does not abort the run. -/
theorem claim_C6 {J : Type} (loads : List Char → Option J) (hash : List Nat → List Char)
    (u1 u2 u3 : UploadedFile) (b2 b3 : List Nat) (e t3 : List Char)
    (h2a : u2.openAndOptimize = Except.ok b2)
    (h2b : u2.providerResp = Except.error e)
    (h3a : u3.openAndOptimize = Except.ok b3)
    (h3b : u3.providerResp = Except.ok t3)
    (cliente endereco model summary : List Char) :
    (mk_report cliente endereco model (run_batch loads hash [u1, u2, u3]) summary).items.length
        = 3 ∧
    (mk_report cliente endereco model (run_batch loads hash [u1, u2, u3]) summary).n_images
        = 3 ∧
    (mk_report cliente endereco model (run_batch loads hash [u1, u2, u3]) summary).items =
      [process_photo loads hash u1,
       { filename := u2.name, image_bytes := none, image_hash := none, json := none,
         parse_ok := false, raw_text := erroMsgHead ++ e },
       { filename := u3.name, image_bytes := some b3, image_hash := some (hash b3),
         json := (extract_json loads (some t3)).1,
         parse_ok := (extract_json loads (some t3)).2.1,
         raw_text := (extract_json loads (some t3)).2.2 }] := by
  have hu2 : process_photo loads hash u2 =
      { filename := u2.name, image_bytes := none, image_hash := none, json := none,
        parse_ok := false, raw_text := erroMsgHead ++ e } := by
    simp [process_photo, h2a, h2b]
  have hu3 : process_photo loads hash u3 =
      { filename := u3.name, image_bytes := some b3, image_hash := some (hash b3),
        json := (extract_json loads (some t3)).1,
        parse_ok := (extract_json loads (some t3)).2.1,
        raw_text := (extract_json loads (some t3)).2.2 } := by
    simp [process_photo, h3a, h3b]
  refine ⟨?_, ?_, ?_⟩ <;> simp [mk_report, run_batch, hu2, hu3]

/-- Witness for claim C6 at a concrete three-photo batch whose second
provider call throws. -/
theorem claim_C6_witness :
    (mk_report [] [] ['m']
        (run_batch loadsEmptyObj (fun _ => ['h'])
          [UploadedFile.mk ['a'] (Except.ok [1]) (Except.ok ['{', '}']),
           UploadedFile.mk ['b'] (Except.ok [2]) (Except.error ['E']),
           UploadedFile.mk ['c'] (Except.ok [3]) (Except.ok ['{', '}'])]) []).items.length
      = 3 ∧
    (mk_report [] [] ['m']
        (run_batch loadsEmptyObj (fun _ => ['h'])
          [UploadedFile.mk ['a'] (Except.ok [1]) (Except.ok ['{', '}']),
           UploadedFile.mk ['b'] (Except.ok [2]) (Except.error ['E']),
           UploadedFile.mk ['c'] (Except.ok [3]) (Except.ok ['{', '}'])]) []).n_images
      = 3 ∧
    (mk_report [] [] ['m']
        (run_batch loadsEmptyObj (fun _ => ['h'])
          [UploadedFile.mk ['a'] (Except.ok [1]) (Except.ok ['{', '}']),
           UploadedFile.mk ['b'] (Except.ok [2]) (Except.error ['E']),
           UploadedFile.mk ['c'] (Except.ok [3]) (Except.ok ['{', '}'])]) []).items =
      [process_photo loadsEmptyObj (fun _ => ['h'])
         (UploadedFile.mk ['a'] (Except.ok [1]) (Except.ok ['{', '}'])),
       { filename := ['b'], image_bytes := none, image_hash := none, json := none,
         parse_ok := false, raw_text := erroMsgHead ++ ['E'] },
       { filename := ['c'], image_bytes := some [3], image_hash := some ['h'],
         json := (extract_json loadsEmptyObj (some ['{', '}'])).1,
         parse_ok := (extract_json loadsEmptyObj (some ['{', '}'])).2.1,
         raw_text := (extract_json loadsEmptyObj (some ['{', '}'])).2.2 }] :=
  claim_C6 loadsEmptyObj (fun _ => ['h'])
    (UploadedFile.mk ['a'] (Except.ok [1]) (Except.ok ['{', '}']))
    (UploadedFile.mk ['b'] (Except.ok [2]) (Except.error ['E']))
    (UploadedFile.mk ['c'] (Except.ok [3]) (Except.ok ['{', '}']))
    [2] [3] ['E'] ['{', '}'] rfl rfl rfl rfl [] [] ['m'] []

/-- Claim C10, confirmed.  When the image step succeeded but the provider
call throws, the per-photo exception handler produces the fallback item
with no image bytes and no image hash, so the report renders that photo
without its image even though the image itself was valid: the renderer's
image-block guard is false for the fallback item. -/
theorem claim_C10 {J : Type} (loads : List Char → Option J) (hash : List Nat → List Char)
    (uf : UploadedFile) (b : List Nat) (e : List Char)
    (ha : uf.openAndOptimize = Except.ok b)
    (hb : uf.providerResp = Except.error e) :
    (process_photo loads hash uf).image_bytes = none ∧
    (process_photo loads hash uf).image_hash = none ∧
    (process_photo loads hash uf).parse_ok = false ∧
    (process_photo loads hash uf).raw_text = erroMsgHead ++ e ∧
    item_pdf_includes_image (process_photo loads hash uf) = false := by
  refine ⟨?_, ?_, ?_, ?_, ?_⟩ <;> simp [process_photo, ha, hb, item_pdf_includes_image]

/-- Witness for claim C10 at a concrete photo whose image step succeeds
and whose provider call throws. -/
theorem claim_C10_witness :
    (process_photo loadsEmptyObj (fun _ => ['h'])
        (UploadedFile.mk ['a'] (Except.ok [7]) (Except.error ['E']))).image_bytes = none ∧
    (process_photo loadsEmptyObj (fun _ => ['h'])
        (UploadedFile.mk ['a'] (Except.ok [7]) (Except.error ['E']))).image_hash = none ∧
    (process_photo loadsEmptyObj (fun _ => ['h'])
        (UploadedFile.mk ['a'] (Except.ok [7]) (Except.error ['E']))).parse_ok = false ∧
    (process_photo loadsEmptyObj (fun _ => ['h'])
        (UploadedFile.mk ['a'] (Except.ok [7]) (Except.error ['E']))).raw_text
      = erroMsgHead ++ ['E'] ∧
    item_pdf_includes_image (process_photo loadsEmptyObj (fun _ => ['h'])
        (UploadedFile.mk ['a'] (Except.ok [7]) (Except.error ['E']))) = false :=
  claim_C10 loadsEmptyObj (fun _ => ['h'])
    (UploadedFile.mk ['a'] (Except.ok [7]) (Except.error ['E'])) [7] ['E'] rfl rfl

theorem buildSections_length (t : List Char) (l : List (Nat × List Char)) :
    (buildSections t l).length = l.length := by
  induction l with
  | nil => rfl
  | cons x rest ih =>
    cases x with
    | mk start key => simp [buildSections, ih]

theorem insertByStart_length (x : Nat × List Char) (l : List (Nat × List Char)) :
    (insertByStart x l).length = l.length + 1 := by
  induction l with
  | nil => rfl
  | cons y ys ih =>
    simp only [insertByStart]
    split_ifs <;> simp [ih]

theorem sortByStart_length (l : List (Nat × List Char)) :
    (sortByStart l).length = l.length := by
  induction l with
  | nil => rfl
  | cons x xs ih => simp [sortByStart, insertByStart_length, ih]

/-- Claim C7, corrected.  The summary splitter is a total function (it
never errors), and when no marker is found in a non-empty markdown-
stripped text it returns that entire text as one block labeled
"Resumo Geral"; but on text that is empty after markdown-stripping and
trimming it returns zero blocks, not at least one.  For every non-empty
stripped text it does return at least one block. -/
theorem claim_C7_amended (text : List Char) (h : strip_md text ≠ []) :
    1 ≤ (split_summary_sections text).length ∧
    ((∀ k ∈ summaryKeys, findSub (lowerPy (strip_md text)) (lowerPy k) = none) →
      split_summary_sections text = [("Resumo Geral".toList, strip_md text)]) := by
  constructor
  · unfold split_summary_sections
    rw [if_neg h]
    rcases hpos : summaryKeys.filterMap
        (fun k => (findSub (lowerPy (strip_md text)) (lowerPy k)).map (fun i => (i, k)))
      with _ | ⟨p, ps⟩
    · simp
    · simp only
      have hlen : (buildSections (strip_md text) (sortByStart (p :: ps))).length =
          ps.length + 1 := by
        rw [buildSections_length, sortByStart_length]
        rfl
      split_ifs <;> simp [hlen]
  · intro hnone
    have hpos : summaryKeys.filterMap
        (fun k => (findSub (lowerPy (strip_md text)) (lowerPy k)).map (fun i => (i, k)))
        = [] := by
      rw [List.filterMap_eq_nil_iff]
      intro k hk
      rw [hnone k hk]
      rfl
    unfold split_summary_sections
    rw [if_neg h, hpos]

/-- Witness for claim C7 at the concrete marker-free text "hello". -/
theorem claim_C7_witness :
    split_summary_sections "hello".toList = [("Resumo Geral".toList, strip_md "hello".toList)] :=
  (claim_C7_amended "hello".toList (by decide)).2 (by decide)

/-- Counterexample to claim C7 as stated: on the empty input text the
splitter returns zero blocks, not at least one. -/
theorem claim_C7_counterexample : (split_summary_sections []).length = 0 := by decide

/-- Claim C8, corrected.  The drawn dimensions preserve the image's
aspect ratio and never exceed the allowed width and height box (for a
non-negative height bound), but the code never caps the drawn size at
the original pixel dimensions: an image smaller than the box is scaled
up to fill it (see the counterexample). -/
theorem claim_C8_amended (w_px h_px : ℕ) (max_w max_h : ℚ) (hh : 0 ≤ max_h) :
    (fit_image_preserve_aspect_dims w_px h_px max_w max_h).1 ≤ max_w ∧
    (fit_image_preserve_aspect_dims w_px h_px max_w max_h).2 ≤ max_h ∧
    (fit_image_preserve_aspect_dims w_px h_px max_w max_h).2 =
      (fit_image_preserve_aspect_dims w_px h_px max_w max_h).1 *
        ((h_px : ℚ) / ((max w_px 1 : ℕ) : ℚ)) := by
  simp only [fit_image_preserve_aspect_dims]
  set a : ℚ := (h_px : ℚ) / ((max w_px 1 : ℕ) : ℚ) with ha
  have ha0 : 0 ≤ a := div_nonneg (Nat.cast_nonneg _) (Nat.cast_nonneg _)
  split_ifs with hcond
  · have hapos : 0 < a := by
      rcases lt_or_eq_of_le ha0 with hlt | heq
      · exact hlt
      · exfalso
        rw [← heq, mul_zero] at hcond
        exact absurd hcond (not_lt.mpr hh)
    refine ⟨?_, le_refl _, ?_⟩
    · show max_h / a ≤ max_w
      rw [div_le_iff₀ hapos]
      exact le_of_lt hcond
    · show max_h = max_h / a * a
      exact (div_mul_cancel₀ max_h (ne_of_gt hapos)).symm
  · exact ⟨le_refl _, not_lt.mp hcond, rfl⟩

/-- Witness for claim C8 at a concrete landscape image and the concrete
box of the renderer (printable width, nine-centimetre height cap). -/
theorem claim_C8_witness :
    (fit_image_preserve_aspect_dims 100 50 usable_w item_image_max_h).1 ≤ usable_w ∧
    (fit_image_preserve_aspect_dims 100 50 usable_w item_image_max_h).2 ≤ item_image_max_h ∧
    (fit_image_preserve_aspect_dims 100 50 usable_w item_image_max_h).2 =
      (fit_image_preserve_aspect_dims 100 50 usable_w item_image_max_h).1 *
        ((50 : ℚ) / ((max 100 1 : ℕ) : ℚ)) :=
  claim_C8_amended 100 50 usable_w item_image_max_h
    (by norm_num [item_image_max_h, cm_pt])

/-- Counterexample to claim C8 as stated: a ten-by-ten-pixel image drawn
with the renderer's box bounds gets drawn dimensions strictly larger than
its original pixel dimensions — the code upscales small images. -/
theorem claim_C8_counterexample :
    (10 : ℚ) < (fit_image_preserve_aspect_dims 10 10 usable_w item_image_max_h).1 ∧
    (10 : ℚ) < (fit_image_preserve_aspect_dims 10 10 usable_w item_image_max_h).2 := by
  have hmax : (max 10 1 : ℕ) = 10 := rfl
  norm_num [fit_image_preserve_aspect_dims, hmax, usable_w, A4_width_pt, cm_pt,
    item_image_max_h]

theorem optimized_dims_of_lt (w h ms : ℕ)
    (hc : (ms : ℚ) / ((max w h : ℕ) : ℚ) < 1) :
    image_to_optimized_jpeg_dims w h ms =
      (⌊(w : ℚ) * ((ms : ℚ) / ((max w h : ℕ) : ℚ))⌋₊,
       ⌊(h : ℚ) * ((ms : ℚ) / ((max w h : ℕ) : ℚ))⌋₊) := by
  simp only [image_to_optimized_jpeg_dims]
  rw [min_eq_left (le_of_lt hc), if_pos hc]

theorem optimized_dims_of_ge (w h ms : ℕ)
    (hc : (1 : ℚ) ≤ (ms : ℚ) / ((max w h : ℕ) : ℚ)) :
    image_to_optimized_jpeg_dims w h ms = (w, h) := by
  simp only [image_to_optimized_jpeg_dims]
  rw [min_eq_right hc]
  simp

/-- Claim C9, confirmed.  For positive input dimensions and a positive
configured maximum, the re-encoded image's longer side never exceeds the
configured maximum, neither dimension ever grows (the scale factor is
capped at one), and the computation is idempotent on pixel dimensions:
re-normalizing the output at the same configuration changes nothing. -/
theorem claim_C9 (w h ms : ℕ) (hw : 0 < w) (hh : 0 < h) (hms : 0 < ms) :
    max (image_to_optimized_jpeg_dims w h ms).1 (image_to_optimized_jpeg_dims w h ms).2 ≤ ms ∧
    (image_to_optimized_jpeg_dims w h ms).1 ≤ w ∧
    (image_to_optimized_jpeg_dims w h ms).2 ≤ h ∧
    image_to_optimized_jpeg_dims (image_to_optimized_jpeg_dims w h ms).1
      (image_to_optimized_jpeg_dims w h ms).2 ms = image_to_optimized_jpeg_dims w h ms := by
  have hM : 0 < max w h := lt_of_lt_of_le hw (le_max_left w h)
  have hMq : (0 : ℚ) < ((max w h : ℕ) : ℚ) := by exact_mod_cast hM
  by_cases hc : (ms : ℚ) / ((max w h : ℕ) : ℚ) < 1
  · have hout := optimized_dims_of_lt w h ms hc
    set q : ℚ := (ms : ℚ) / ((max w h : ℕ) : ℚ) with hqdef
    have hq0 : (0 : ℚ) ≤ q := div_nonneg (Nat.cast_nonneg _) hMq.le
    have hq1 : q ≤ 1 := le_of_lt hc
    have hfloorM : ⌊((max w h : ℕ) : ℚ) * q⌋₊ = ms := by
      have hcancel : ((max w h : ℕ) : ℚ) * q = (ms : ℚ) := by
        rw [hqdef, mul_comm]
        exact div_mul_cancel₀ (ms : ℚ) (ne_of_gt hMq)
      rw [hcancel, Nat.floor_natCast]
    have hfw : ⌊(w : ℚ) * q⌋₊ ≤ ms := by
      rw [← hfloorM]
      exact Nat.floor_mono (mul_le_mul_of_nonneg_right (by exact_mod_cast le_max_left w h) hq0)
    have hfh : ⌊(h : ℚ) * q⌋₊ ≤ ms := by
      rw [← hfloorM]
      exact Nat.floor_mono (mul_le_mul_of_nonneg_right (by exact_mod_cast le_max_right w h) hq0)
    have hlew : ⌊(w : ℚ) * q⌋₊ ≤ w := by
      calc ⌊(w : ℚ) * q⌋₊ ≤ ⌊(w : ℚ)⌋₊ :=
            Nat.floor_mono (mul_le_of_le_one_right (Nat.cast_nonneg w) hq1)
        _ = w := Nat.floor_natCast w
    have hleh : ⌊(h : ℚ) * q⌋₊ ≤ h := by
      calc ⌊(h : ℚ) * q⌋₊ ≤ ⌊(h : ℚ)⌋₊ :=
            Nat.floor_mono (mul_le_of_le_one_right (Nat.cast_nonneg h) hq1)
        _ = h := Nat.floor_natCast h
    have hmaxout : max ⌊(w : ℚ) * q⌋₊ ⌊(h : ℚ) * q⌋₊ = ms := by
      rcases le_total w h with hwh | hwh
      · have h1 : max w h = h := max_eq_right hwh
        have h2 : ⌊(h : ℚ) * q⌋₊ = ms := by
          rw [← hfloorM, h1]
        have h3 : ⌊(w : ℚ) * q⌋₊ ≤ ⌊(h : ℚ) * q⌋₊ :=
          Nat.floor_mono (mul_le_mul_of_nonneg_right (by exact_mod_cast hwh) hq0)
        rw [max_eq_right h3, h2]
      · have h1 : max w h = w := max_eq_left hwh
        have h2 : ⌊(w : ℚ) * q⌋₊ = ms := by
          rw [← hfloorM, h1]
        have h3 : ⌊(h : ℚ) * q⌋₊ ≤ ⌊(w : ℚ) * q⌋₊ :=
          Nat.floor_mono (mul_le_mul_of_nonneg_right (by exact_mod_cast hwh) hq0)
        rw [max_eq_left h3, h2]
    have hidem : image_to_optimized_jpeg_dims ⌊(w : ℚ) * q⌋₊ ⌊(h : ℚ) * q⌋₊ ms =
        (⌊(w : ℚ) * q⌋₊, ⌊(h : ℚ) * q⌋₊) := by
      apply optimized_dims_of_ge
      rw [hmaxout, div_self (by exact_mod_cast hms.ne' : ((ms : ℕ) : ℚ) ≠ 0)]
    rw [hout]
    exact ⟨le_of_eq hmaxout, hlew, hleh, hidem⟩
  · have h1le : (1 : ℚ) ≤ (ms : ℚ) / ((max w h : ℕ) : ℚ) := not_lt.mp hc
    have hout := optimized_dims_of_ge w h ms h1le
    have hMle : max w h ≤ ms := by
      have := (one_le_div hMq).mp h1le
      exact_mod_cast this
    rw [hout]
    exact ⟨hMle, le_refl w, le_refl h, hout⟩

/-- Witness for claim C9 at a concrete 2000 by 1000 image and the default
configured maximum of 1280. -/
theorem claim_C9_witness :
    max (image_to_optimized_jpeg_dims 2000 1000 1280).1
      (image_to_optimized_jpeg_dims 2000 1000 1280).2 ≤ 1280 ∧
    (image_to_optimized_jpeg_dims 2000 1000 1280).1 ≤ 2000 ∧
    (image_to_optimized_jpeg_dims 2000 1000 1280).2 ≤ 1000 ∧
    image_to_optimized_jpeg_dims (image_to_optimized_jpeg_dims 2000 1000 1280).1
      (image_to_optimized_jpeg_dims 2000 1000 1280).2 1280
      = image_to_optimized_jpeg_dims 2000 1000 1280 :=
  claim_C9 2000 1000 1280 (by decide) (by decide) (by decide)
